import Mathlib

/-!
Shallow embedding of the carrysight quote-confirmation page.

Source files:
* `src/unnamed/part_000` — hook `useQuoteConfirmation` with the URL
  inspection routine `checkQuoteUrl`: it first matches the pathname against
  the regex `\/quote\/confirm\/([^\/]+)\/([^\/]+)` and, failing that, reads
  the query parameters `action`, `quote`, `token` through `URLSearchParams`.
* `src/QuoteConfirmation.tsx` — React component with local state
  `quote / isLoading / isConfirming / confirmed / error`, the async handlers
  `loadQuoteDetails` (GET) and `handleConfirmQuote` (confirm POST), and a
  renderer choosing between loading, error, not-found, pending and confirmed
  panels.

URLs are modelled as the pair of strings (`pathname`, `search`); network
calls are modelled by passing the outcome of the HTTP interaction explicitly
to the handler, which maps a component state to the next component state.
-/

/-! ## URL pattern extractor (`src/unnamed/part_000`) -/

/-- The literal part of the pathname regex `\/quote\/confirm\/…`. -/
def confirmLit : List Char := "/quote/confirm/".data

/-- Consume an expected literal at the head of the input; `none` when the
input does not start with the literal. -/
def dropLit : List Char → List Char → Option (List Char)
  | [], cs => some cs
  | _ :: _, [] => none
  | l :: ls, c :: cs => if c = l then dropLit ls cs else none

/-- Greedy `[^\/]+`-style take: the maximal run of non-slash characters. -/
def takeNonSlash : List Char → List Char
  | [] => []
  | c :: t => if c = '/' then [] else c :: takeNonSlash t

/-- What remains of the input after `takeNonSlash`. -/
def dropNonSlash : List Char → List Char
  | [] => []
  | c :: t => if c = '/' then c :: t else dropNonSlash t

/-- Attempt the regex `\/quote\/confirm\/([^\/]+)\/([^\/]+)` at the start of
the input, returning the two capture groups. The first group is the maximal
non-slash run after the literal (it must be non-empty and followed by `/`),
the second is the maximal non-slash run after that slash (non-empty). -/
def matchAt (cs : List Char) : Option (List Char × List Char) :=
  match dropLit confirmLit cs with
  | none => none
  | some r0 =>
    if takeNonSlash r0 = [] then none
    else
      match dropNonSlash r0 with
      | [] => none
      | x :: r2 =>
        if x = '/' then
          if takeNonSlash r2 = [] then none
          else some (takeNonSlash r0, takeNonSlash r2)
        else none

/-- JavaScript `String.match` with an unanchored regex: try `matchAt` at each
position from the left and return the first (leftmost) match. -/
def scanMatch : List Char → Option (List Char × List Char)
  | [] => none
  | c :: t =>
    match matchAt (c :: t) with
    | some r => some r
    | none => scanMatch t

/-- Embedding of `path.match(/\/quote\/confirm\/([^\/]+)\/([^\/]+)/)`, giving
the pair of capture groups `(quoteId, token)`. -/
def pathConfirmMatch (pathname : String) : Option (String × String) :=
  (scanMatch pathname.data).map (fun p => (p.1.asString, p.2.asString))

/-- Value of one hexadecimal digit, as used by percent-decoding. -/
def hexVal (c : Char) : Option Nat :=
  if '0' ≤ c ∧ c ≤ '9' then some (c.toNat - '0'.toNat)
  else if 'a' ≤ c ∧ c ≤ 'f' then some (c.toNat - 'a'.toNat + 10)
  else if 'A' ≤ c ∧ c ≤ 'F' then some (c.toNat - 'A'.toNat + 10)
  else none

/-- Decoding of one `URLSearchParams` component: `+` becomes a space and `%XY`
(two hex digits) the character with that code; anything else passes through. -/
def decodeComp : List Char → List Char
  | [] => []
  | '+' :: t => ' ' :: decodeComp t
  | '%' :: a :: b :: t =>
    match hexVal a, hexVal b with
    | some x, some y => Char.ofNat (16 * x + y) :: decodeComp t
    | _, _ => '%' :: decodeComp (a :: b :: t)
  | c :: t => c :: decodeComp t

/-- Split a character list at every occurrence of a separator. -/
def splitSep (sep : Char) : List Char → List (List Char)
  | [] => [[]]
  | c :: t =>
    if c = sep then [] :: splitSep sep t
    else
      match splitSep sep t with
      | [] => [[c]]
      | h :: r => (c :: h) :: r

/-- Parsing of `new URLSearchParams(search)`: strip a leading `?`, split on `&`, drop
empty segments, split each segment at the first `=` (a segment without `=`
gets the empty value) and decode name and value. -/
def parsePairs (search : String) : List (String × String) :=
  let cs :=
    match search.data with
    | '?' :: t => t
    | cs => cs
  ((splitSep '&' cs).filter (fun seg => seg ≠ [])).map (fun seg =>
    let n := takeSeg seg
    let v :=
      match dropSeg seg with
      | [] => []
      | _ :: t => t
    ((decodeComp n).asString, (decodeComp v).asString))
where
  -- characters of a segment before the first equals sign
  takeSeg : List Char → List Char
    | [] => []
    | c :: t => if c = '=' then [] else c :: takeSeg t
  -- rest of a segment from the first equals sign on
  dropSeg : List Char → List Char
    | [] => []
    | c :: t => if c = '=' then c :: t else dropSeg t

/-- Lookup `searchParams.get(key)`: value of the first pair with the given name,
`none` when the name does not occur (JavaScript `null`). -/
def getParam (search key : String) : Option String :=
  ((parsePairs search).find? (fun p => p.1 == key)).map (fun p => p.2)

/-- JavaScript truthiness of a `string | null` value: `null` and the empty
string are falsy. -/
def truthy : Option String → Bool
  | none => false
  | some s => s != ""

/-- The query-based shape fires: `action === 'confirm' && quoteParam &&
tokenParam` in `checkQuoteUrl`. -/
def queryHit (search : String) : Bool :=
  (getParam search "action" == some "confirm")
    && truthy (getParam search "quote")
    && truthy (getParam search "token")

/-- Function `checkQuoteUrl` from `src/unnamed/part_000`: first the pathname regex,
then the query parameters; `none` models `setQuoteConfirmation(null)`. -/
def checkQuoteUrl (pathname search : String) : Option (String × String) :=
  match pathConfirmMatch pathname with
  | some p => some p
  | none =>
    match getParam search "action", getParam search "quote", getParam search "token" with
    | some a, some q, some t =>
      if a = "confirm" ∧ q ≠ "" ∧ t ≠ "" then some (q, t) else none
    | _, _, _ => none

/-- A character list without any `/`. -/
def slashFree (cs : List Char) : Prop := ∀ c ∈ cs, c ≠ '/'

instance (cs : List Char) : Decidable (slashFree cs) :=
  inferInstanceAs (Decidable (∀ c ∈ cs, c ≠ '/'))

/-- The pathname contains an occurrence of the substring shape
`/quote/confirm/{a}/{b}…` starting at position `i`, with `a` and `b`
non-empty and slash-free. -/
def patternAt (p : List Char) (i : Nat) : Prop :=
  ∃ a b rest, a ≠ [] ∧ b ≠ [] ∧ slashFree a ∧ slashFree b ∧
    p.drop i = confirmLit ++ a ++ '/' :: (b ++ rest)

/-! ## Quote confirmation view (`src/QuoteConfirmation.tsx`) -/

/-- Salesperson contact block of a quote. -/
structure Salesperson where
  name : String
  email : String
  phone : String
deriving DecidableEq

/-- Server-supplied quote record. The TypeScript interface lists
`quoteReference`, `origin`, `destination`, `mode`, `currency`, `totalCost`,
`customerEmail`, optional `acceptedAt` and `salesperson`; `loadQuoteDetails`
additionally reads `status` (`data.quote?.status === 'accepted'`). -/
structure Quote where
  quoteReference : String
  origin : String
  destination : String
  mode : String
  currency : String
  totalCost : Int
  customerEmail : String
  status : String
  acceptedAt : Option String
  salesperson : Option Salesperson
deriving DecidableEq

/-- Local component state: the five `useState` hooks of `QuoteConfirmation`. -/
structure ComponentState where
  quote : Option Quote
  isLoading : Bool
  isConfirming : Bool
  confirmed : Bool
  error : Option String
deriving DecidableEq

/-- Initial values of the five `useState` hooks. -/
def initialState : ComponentState :=
  { quote := none, isLoading := true, isConfirming := false,
    confirmed := false, error := none }

/-- Outcome of the GET `/quotes/{quoteId}/{token}` interaction as the
component observes it: a 2xx response with parsed JSON body (whose `quote`
field may be absent), a non-2xx response with its status and body text, a
network failure, or a JSON parse failure. For the two thrown cases the
payload is the `Error` message, or `none` when a non-`Error` value was
thrown. -/
inductive GetOutcome where
  | success (quote : Option Quote)
  | httpError (status : Nat) (text : String)
  | networkError (msg : Option String)
  | parseError (msg : Option String)
deriving DecidableEq

/-- Whether a GET outcome is one of the three failure cases. -/
def GetOutcome.isFailure : GetOutcome → Bool
  | .success _ => false
  | _ => true

/-- Outcome of the confirm POST `/quotes/{quoteId}/{token}/confirm`, with the
same shape as `GetOutcome`; on success the component only reads `data.quote`. -/
inductive ConfirmOutcome where
  | success (quote : Option Quote)
  | httpError (status : Nat) (text : String)
  | networkError (msg : Option String)
  | parseError (msg : Option String)
deriving DecidableEq

/-- Whether a confirm outcome is one of the three failure cases. -/
def ConfirmOutcome.isFailure : ConfirmOutcome → Bool
  | .success _ => false
  | _ => true

/-- Whether the message the catch block stores for this GET outcome is
non-empty (JavaScript-truthy). Every message the component itself constructs
- the non-2xx message and the non-`Error` fallback - is non-empty; only a
host-thrown `Error` whose `message` is the empty string fails this. -/
def GetOutcome.errTruthy : GetOutcome → Bool
  | .networkError (some m) => m != ""
  | .parseError (some m) => m != ""
  | _ => true

/-- Whether the message the catch block stores for this confirm outcome is
non-empty (JavaScript-truthy); see `GetOutcome.errTruthy`. -/
def ConfirmOutcome.errTruthy : ConfirmOutcome → Bool
  | .networkError (some m) => m != ""
  | .parseError (some m) => m != ""
  | _ => true

/-- Start of `loadQuoteDetails`: `setIsLoading(true); setError(null)`. -/
def loadStart (s : ComponentState) : ComponentState :=
  { s with isLoading := true, error := none }

/-- Rest of `loadQuoteDetails` once the GET settles: on success store
`data.quote` and set `confirmed` to `data.quote?.status === 'accepted'`; on a
non-2xx response the thrown error's message is
`Failed to load quote details: {status} {text}`; a caught non-`Error` value
falls back to the literal `'Failed to load quote details'`. The `finally`
block clears `isLoading`. -/
def loadFinish (s : ComponentState) (o : GetOutcome) : ComponentState :=
  let s1 :=
    match o with
    | .success q? =>
      { s with
        quote := q?,
        confirmed :=
          match q? with
          | some q => q.status == "accepted"
          | none => false }
    | .httpError st txt =>
      { s with error := some ("Failed to load quote details: " ++ toString st ++ " " ++ txt) }
    | .networkError m => { s with error := some (m.getD "Failed to load quote details") }
    | .parseError m => { s with error := some (m.getD "Failed to load quote details") }
  { s1 with isLoading := false }

/-- The whole `loadQuoteDetails` handler for a GET that settles with `o`. -/
def loadQuoteDetails (s : ComponentState) (o : GetOutcome) : ComponentState :=
  loadFinish (loadStart s) o

/-- Start of `handleConfirmQuote`: `setIsConfirming(true); setError(null)`.
This is the component state while the confirm POST is pending. -/
def confirmStart (s : ComponentState) : ComponentState :=
  { s with isConfirming := true, error := none }

/-- Rest of `handleConfirmQuote` once the POST settles: on success
`setConfirmed(true)` and, only when `data.quote` is present, overwrite the
local quote with it; failures set the error message analogously to
`loadFinish`. The `finally` block clears `isConfirming`. -/
def confirmFinish (s : ComponentState) (o : ConfirmOutcome) : ComponentState :=
  let s1 :=
    match o with
    | .success q? =>
      { s with
        confirmed := true,
        quote :=
          match q? with
          | some q => some q
          | none => s.quote }
    | .httpError st txt =>
      { s with error := some ("Failed to confirm quote: " ++ toString st ++ " " ++ txt) }
    | .networkError m => { s with error := some (m.getD "Failed to confirm quote") }
    | .parseError m => { s with error := some (m.getD "Failed to confirm quote") }
  { s1 with isConfirming := false }

/-- The whole `handleConfirmQuote` handler for a POST that settles with `o`. -/
def handleConfirmQuote (s : ComponentState) (o : ConfirmOutcome) : ComponentState :=
  confirmFinish (confirmStart s) o

/-- Click handler wired to a rendered button: the error panel's Try Again
button calls `loadQuoteDetails`, the Accept Quote button calls
`handleConfirmQuote`. -/
inductive ClickHandler where
  | retryLoad
  | acceptQuote
deriving DecidableEq

/-- Which of the component's top-level panels is rendered. The pending view
carries the Accept Quote button's `disabled={isConfirming}` flag. -/
inductive View where
  | loading
  | errorPanel (msg : String) (onRetry : ClickHandler)
  | notFound
  | confirmedView (q : Quote)
  | pendingView (q : Quote) (acceptDisabled : Bool) (onAccept : ClickHandler)
deriving DecidableEq

/-- The component's render function: early return on `isLoading`, then on a
truthy `error` - the source checks `if (error)`, so a stored empty string,
being falsy in JavaScript, falls through - then on a missing quote;
otherwise the confirmed card or the pending card with the accept button. -/
def render (s : ComponentState) : View :=
  if s.isLoading then .loading
  else if truthy s.error then .errorPanel (s.error.getD "") .retryLoad
  else
    match s.quote with
    | none => .notFound
    | some q =>
      if s.confirmed then .confirmedView q
      else .pendingView q s.isConfirming .acceptQuote

/-- An HTTP request the page can issue to the backend for a given
quote id and token. -/
inductive Request where
  | getQuote (quoteId token : String)
  | postConfirm (quoteId token : String)
deriving DecidableEq

/-- The request issued by the `useEffect` mount hook of
`src/QuoteConfirmation.tsx`: it calls `loadQuoteDetails`, the GET. -/
def mountRequest (quoteId token : String) : Request :=
  .getQuote quoteId token

/-- The request issued by `handleConfirmQuote`, wired to the Accept Quote
button: the confirm POST. -/
def confirmRequest (quoteId token : String) : Request :=
  .postConfirm quoteId token

/-- Modelled from the spec: the repository's second quote-confirmation
variant - "on another variant, confirmation is performed automatically on
mount" (spec section 4.2) - is not under `src/`; on mount it issues the
confirm POST directly, with no user-triggered accept action. -/
def autoVariantMountRequest (quoteId token : String) : Request :=
  .postConfirm quoteId token

/-- A concrete quote record, used to evaluate the embedding on closed
inputs. -/
def qDemo : Quote :=
  { quoteReference := "QT1", origin := "Shanghai", destination := "Rotterdam",
    mode := "FCL", currency := "USD", totalCost := 2500,
    customerEmail := "ops@acme.test", status := "pending",
    acceptedAt := none, salesperson := none }

/-- A concrete idle component state: quote loaded, nothing pending. -/
def sIdle : ComponentState :=
  { quote := some qDemo, isLoading := false, isConfirming := false,
    confirmed := false, error := none }

/-! ## Lemmas about the pathname matcher -/

theorem dropLit_app (l cs : List Char) : dropLit l (l ++ cs) = some cs := by
  induction l with
  | nil => rfl
  | cons c l ih => simp [dropLit, ih]

theorem dropLit_sound (l : List Char) : ∀ cs r, dropLit l cs = some r → cs = l ++ r := by
  induction l with
  | nil =>
    intro cs r h
    simp [dropLit] at h
    simp [h]
  | cons c l ih =>
    intro cs r h
    cases cs with
    | nil => simp [dropLit] at h
    | cons d cs =>
      simp only [dropLit] at h
      split at h
      · next hd =>
        subst hd
        simpa using ih cs r h
      · exact absurd h (by simp)

theorem takeNS_app (a r : List Char) (ha : slashFree a)
    (hr : r = [] ∨ ∃ t, r = '/' :: t) : takeNonSlash (a ++ r) = a := by
  induction a with
  | nil =>
    rcases hr with h | ⟨t, h⟩ <;> subst h <;> simp [takeNonSlash]
  | cons c a ih =>
    have hc : c ≠ '/' := ha c (by simp)
    have ha' : slashFree a := fun x hx => ha x (by simp [hx])
    simp [takeNonSlash, hc, ih ha']

theorem dropNS_app (a r : List Char) (ha : slashFree a)
    (hr : r = [] ∨ ∃ t, r = '/' :: t) : dropNonSlash (a ++ r) = r := by
  induction a with
  | nil =>
    rcases hr with h | ⟨t, h⟩ <;> subst h <;> simp [dropNonSlash]
  | cons c a ih =>
    have hc : c ≠ '/' := ha c (by simp)
    have ha' : slashFree a := fun x hx => ha x (by simp [hx])
    simp [dropNonSlash, hc, ih ha']

theorem takeNS_dropNS (cs : List Char) : takeNonSlash cs ++ dropNonSlash cs = cs := by
  induction cs with
  | nil => rfl
  | cons c t ih =>
    by_cases hc : c = '/' <;> simp [takeNonSlash, dropNonSlash, hc, ih]

theorem slashFree_takeNS (cs : List Char) : slashFree (takeNonSlash cs) := by
  induction cs with
  | nil => intro x hx; simp [takeNonSlash] at hx
  | cons c t ih =>
    intro x hx
    by_cases hc : c = '/'
    · simp [takeNonSlash, hc] at hx
    · simp [takeNonSlash, hc] at hx
      rcases hx with h | h
      · simpa [h] using hc
      · exact ih x h

theorem dropNS_shape (cs : List Char) :
    dropNonSlash cs = [] ∨ ∃ t, dropNonSlash cs = '/' :: t := by
  induction cs with
  | nil => left; rfl
  | cons c t ih =>
    by_cases hc : c = '/'
    · right; exact ⟨t, by simp [dropNonSlash, hc]⟩
    · simpa [dropNonSlash, hc] using ih

theorem takeNS_ne_nil (c : Char) (t : List Char) (hc : c ≠ '/') :
    takeNonSlash (c :: t) ≠ [] := by
  simp [takeNonSlash, hc]

theorem matchAt_nil : matchAt [] = none := rfl

theorem matchAt_complete (a b rest : List Char)
    (ha : a ≠ []) (hb : b ≠ []) (hsa : slashFree a) (hsb : slashFree b)
    (hr : rest = [] ∨ ∃ t, rest = '/' :: t) :
    matchAt (confirmLit ++ (a ++ '/' :: (b ++ rest))) = some (a, b) := by
  have h1 : takeNonSlash (a ++ '/' :: (b ++ rest)) = a :=
    takeNS_app _ _ hsa (Or.inr ⟨_, rfl⟩)
  have h2 : dropNonSlash (a ++ '/' :: (b ++ rest)) = '/' :: (b ++ rest) :=
    dropNS_app _ _ hsa (Or.inr ⟨_, rfl⟩)
  have h3 : takeNonSlash (b ++ rest) = b := takeNS_app _ _ hsb hr
  unfold matchAt
  rw [dropLit_app]
  simp only [h1, h2, h3]
  simp [ha, hb]

theorem matchAt_sound (cs a b : List Char) (h : matchAt cs = some (a, b)) :
    ∃ rest, cs = confirmLit ++ (a ++ '/' :: (b ++ rest)) ∧
      a ≠ [] ∧ b ≠ [] ∧ slashFree a ∧ slashFree b := by
  unfold matchAt at h
  cases hdl : dropLit confirmLit cs with
  | none => rw [hdl] at h; simp at h
  | some r0 =>
    rw [hdl] at h
    have hcs := dropLit_sound _ _ _ hdl
    simp only [] at h
    by_cases hne : takeNonSlash r0 = []
    · simp [hne] at h
    · rw [if_neg hne] at h
      cases hds : dropNonSlash r0 with
      | nil => rw [hds] at h; simp at h
      | cons x r2 =>
        rw [hds] at h
        simp only [] at h
        by_cases hx : x = '/'
        · subst hx
          rw [if_pos rfl] at h
          by_cases htr : takeNonSlash r2 = []
          · simp [htr] at h
          · rw [if_neg htr] at h
            simp only [Option.some.injEq, Prod.mk.injEq] at h
            obtain ⟨ha', hb'⟩ := h
            subst ha'
            subst hb'
            refine ⟨dropNonSlash r2, ?_, hne, htr, ?_, slashFree_takeNS r2⟩
            · rw [hcs]
              congr 1
              calc r0 = takeNonSlash r0 ++ dropNonSlash r0 := (takeNS_dropNS r0).symm
                _ = takeNonSlash r0 ++ '/' :: r2 := by rw [hds]
                _ = takeNonSlash r0 ++ '/' :: (takeNonSlash r2 ++ dropNonSlash r2) := by
                    rw [takeNS_dropNS r2]
            · exact slashFree_takeNS r0
        · simp [hx] at h

theorem patternAt_iff (p : List Char) (i : Nat) :
    patternAt p i ↔ (matchAt (p.drop i)).isSome = true := by
  constructor
  · rintro ⟨a, b, rest, ha, hb, hsa, hsb, hdec⟩
    obtain ⟨d, b', rfl⟩ := List.exists_cons_of_ne_nil hb
    have hd : d ≠ '/' := hsb d (by simp)
    have h1 : takeNonSlash (a ++ '/' :: ((d :: b') ++ rest)) = a :=
      takeNS_app _ _ hsa (Or.inr ⟨_, rfl⟩)
    have h2 : dropNonSlash (a ++ '/' :: ((d :: b') ++ rest)) = '/' :: ((d :: b') ++ rest) :=
      dropNS_app _ _ hsa (Or.inr ⟨_, rfl⟩)
    have h3 : takeNonSlash (d :: (b' ++ rest)) ≠ [] :=
      takeNS_ne_nil d (b' ++ rest) hd
    rw [hdec, List.append_assoc]
    unfold matchAt
    rw [dropLit_app]
    simp only [h1, h2]
    simp [ha, h3]
  · intro h
    rw [Option.isSome_iff_exists] at h
    obtain ⟨⟨a, b⟩, hm⟩ := h
    obtain ⟨rest, hdec, ha, hb, hsa, hsb⟩ := matchAt_sound _ _ _ hm
    exact ⟨a, b, rest, ha, hb, hsa, hsb, by simpa using hdec⟩

theorem scanMatch_some_of (cs : List Char) (r : List Char × List Char)
    (h : matchAt cs = some r) : scanMatch cs = some r := by
  cases cs with
  | nil => rw [matchAt_nil] at h; exact absurd h (by simp)
  | cons c t => simp [scanMatch, h]

theorem scan_skip (pre cs : List Char)
    (h : ∀ i, i < pre.length → matchAt ((pre ++ cs).drop i) = none) :
    scanMatch (pre ++ cs) = scanMatch cs := by
  induction pre with
  | nil => rfl
  | cons c pre ih =>
    have h0 : matchAt (c :: (pre ++ cs)) = none := by
      simpa using h 0 (by simp)
    have hrest : ∀ i, i < pre.length → matchAt ((pre ++ cs).drop i) = none := by
      intro i hi
      simpa [List.drop_succ_cons] using h (i + 1) (by simpa using Nat.succ_lt_succ hi)
    calc scanMatch ((c :: pre) ++ cs)
        = scanMatch (c :: (pre ++ cs)) := by rw [List.cons_append]
      _ = scanMatch (pre ++ cs) := by simp [scanMatch, h0]
      _ = scanMatch cs := ih hrest

theorem scanMatch_none_drops (cs : List Char) (h : scanMatch cs = none) :
    ∀ i, matchAt (cs.drop i) = none := by
  induction cs with
  | nil => intro i; simp [matchAt_nil]
  | cons c t ih =>
    have h1 : matchAt (c :: t) = none := by
      cases hm : matchAt (c :: t) with
      | none => rfl
      | some r => simp [scanMatch, hm] at h
    have h2 : scanMatch t = none := by
      have := h
      simp only [scanMatch, h1] at this
      exact this
    intro i
    cases i with
    | zero => simpa using h1
    | succ n => simpa [List.drop_succ_cons] using ih h2 n

theorem scanMatch_none_of (cs : List Char) (h : ∀ i, matchAt (cs.drop i) = none) :
    scanMatch cs = none := by
  induction cs with
  | nil => rfl
  | cons c t ih =>
    have h0 : matchAt (c :: t) = none := by simpa using h 0
    have ht : ∀ i, matchAt (t.drop i) = none := fun i => by
      simpa [List.drop_succ_cons] using h (i + 1)
    simp [scanMatch, h0, ih ht]

theorem scanMatch_eq_none_iff (cs : List Char) :
    scanMatch cs = none ↔ ∀ i, ¬ patternAt cs i := by
  constructor
  · intro h i hp
    rw [patternAt_iff] at hp
    rw [scanMatch_none_drops cs h i] at hp
    simp at hp
  · intro h
    apply scanMatch_none_of
    intro i
    cases hm : matchAt (cs.drop i) with
    | none => rfl
    | some r =>
      exact absurd ((patternAt_iff cs i).mpr (by simp [hm])) (h i)

/-! ## Lemmas about the component -/

theorem append_ne_empty_left (p q : String) (hp : p ≠ "") : p ++ q ≠ "" := by
  intro h
  apply hp
  rw [String.ext_iff] at h ⊢
  rw [String.data_append] at h
  have h2 : p.data ++ q.data = ([] : List Char) := h
  exact (List.append_eq_nil.mp h2).1

theorem render_error_state (st : ComponentState) (m : String)
    (hl : st.isLoading = false) (he : st.error = some m) (hm : m ≠ "") :
    render st = View.errorPanel m ClickHandler.retryLoad := by
  unfold render
  rw [hl, he]
  simp [truthy, hm]

/-! ## Claims -/

/-- Claim C1: in one variant of the quote confirmation view (modelled from
the spec, since only the fetch-then-accept variant is under `src/`), the
confirm POST is performed automatically on mount, with no user-triggered
accept action; on mount the component under `src/` fetches the quote with a
GET, its confirm POST being issued only by the accept button's handler. -/
theorem c1_mount_behaviour (quoteId token : String) :
    autoVariantMountRequest quoteId token = Request.postConfirm quoteId token
      ∧ mountRequest quoteId token = Request.getQuote quoteId token
      ∧ confirmRequest quoteId token = Request.postConfirm quoteId token :=
  ⟨rfl, rfl, rfl⟩

/-- Claim C2: the path `/quote/confirm/AB12/tok_xyz` and the query string
`?action=confirm&quote=AB12&token=tok_xyz` both yield the pair
`(quoteId, token) = ("AB12", "tok_xyz")`. -/
theorem c2_example_urls :
    checkQuoteUrl "/quote/confirm/AB12/tok_xyz" "" = some ("AB12", "tok_xyz")
      ∧ checkQuoteUrl "/" "?action=confirm&quote=AB12&token=tok_xyz"
          = some ("AB12", "tok_xyz") :=
  ⟨by decide, by decide⟩

/-- Claim C3: a URL unrelated to quote confirmation (its path contains no
occurrence of the `/quote/confirm/{id}/{token}` shape and its query does not
carry `action=confirm` with non-empty `quote` and `token` parameters) yields
no pair: the confirmation state is cleared to `none`. -/
theorem c3_unrelated_url (pathname search : String)
    (hp : ∀ i, ¬ patternAt pathname.data i) (hq : queryHit search = false) :
    checkQuoteUrl pathname search = none := by
  have hscan : scanMatch pathname.data = none := (scanMatch_eq_none_iff _).mpr hp
  have hpath : pathConfirmMatch pathname = none := by
    simp [pathConfirmMatch, hscan]
  unfold checkQuoteUrl
  rw [hpath]
  cases ha : getParam search "action" with
  | none => simp
  | some a =>
    cases hqp : getParam search "quote" with
    | none => simp
    | some q =>
      cases htp : getParam search "token" with
      | none => simp
      | some t =>
        simp only []
        have hcond : ¬ (a = "confirm" ∧ q ≠ "" ∧ t ≠ "") := by
          rintro ⟨rfl, h2, h3⟩
          unfold queryHit at hq
          rw [ha, hqp, htp] at hq
          simp [truthy, h2, h3] at hq
        simp [hcond]

/-- Witness for C3 at the unrelated URL `/pricing?foo=bar`. -/
theorem c3_unrelated_url_witness : checkQuoteUrl "/pricing" "?foo=bar" = none :=
  c3_unrelated_url "/pricing" "?foo=bar"
    ((scanMatch_eq_none_iff _).mp (by decide)) (by decide)

/-- Claim C4: the path regex is tried before the query parameters: when the
pathname matches, the produced pair is the one from the path segments,
whatever the query string (in particular when the query shape is present as
well). -/
theorem c4_path_precedence (pathname search : String) (p : String × String)
    (hp : pathConfirmMatch pathname = some p) (hq : queryHit search = true) :
    checkQuoteUrl pathname search = some p := by
  unfold checkQuoteUrl
  rw [hp]

/-- Witness for C4: both shapes present with different pairs; the result is
the path's pair, not the query's. -/
theorem c4_path_precedence_witness :
    checkQuoteUrl "/quote/confirm/A/B" "?action=confirm&quote=X&token=Y"
      = some ("A", "B") :=
  c4_path_precedence "/quote/confirm/A/B" "?action=confirm&quote=X&token=Y"
    ("A", "B") (by decide) (by decide)

/-- Claim C8: for the query-based shape all three conditions are required
and empty strings are rejected: with `action=confirm` present, if the
`quote` or `token` parameter is absent or bound to the empty string (and the
path shape is absent), the extractor yields no pair. -/
theorem c8_query_requires_all (pathname search : String)
    (hp : pathConfirmMatch pathname = none)
    (ha : getParam search "action" = some "confirm")
    (h : getParam search "quote" = none ∨ getParam search "quote" = some ""
      ∨ getParam search "token" = none ∨ getParam search "token" = some "") :
    checkQuoteUrl pathname search = none := by
  unfold checkQuoteUrl
  rw [hp]
  rcases h with h | h | h | h
  · simp [ha, h]
  · cases htp : getParam search "token" with
    | none => simp [ha, h, htp]
    | some t => simp [ha, h, htp]
  · cases hqp : getParam search "quote" with
    | none => simp [ha, hqp]
    | some q => simp [ha, hqp, h]
  · cases hqp : getParam search "quote" with
    | none => simp [ha, hqp]
    | some q => simp [ha, hqp, h]

/-- Witness for C8: `action=confirm` with a quote id but an empty token
yields no pair. -/
theorem c8_query_requires_all_witness :
    checkQuoteUrl "/" "?action=confirm&quote=AB12&token=" = none :=
  c8_query_requires_all "/" "?action=confirm&quote=AB12&token="
    (by decide) (by decide) (by decide)

/-- Claim C9: the path regex is not anchored: for every pathname containing
the substring shape `/quote/confirm/{a}/{b}` (with `a`, `b` non-empty and
slash-free), including a prefix before `/quote` and trailing segments, the
extractor yields the pair of the first such occurrence, `b` being the full
remainder of that path segment. -/
theorem c9_unanchored_first_occurrence (pre a b rest : List Char) (search : String)
    (ha : a ≠ []) (hb : b ≠ []) (hsa : slashFree a) (hsb : slashFree b)
    (hseg : rest = [] ∨ ∃ t, rest = '/' :: t)
    (hfirst : ∀ i, i < pre.length →
      ¬ patternAt (pre ++ (confirmLit ++ (a ++ '/' :: (b ++ rest)))) i) :
    checkQuoteUrl (String.mk (pre ++ (confirmLit ++ (a ++ '/' :: (b ++ rest))))) search
      = some (a.asString, b.asString) := by
  have hnone : ∀ i, i < pre.length →
      matchAt ((pre ++ (confirmLit ++ (a ++ '/' :: (b ++ rest)))).drop i) = none := by
    intro i hi
    cases hm : matchAt ((pre ++ (confirmLit ++ (a ++ '/' :: (b ++ rest)))).drop i) with
    | none => rfl
    | some r =>
      exact absurd ((patternAt_iff _ i).mpr (by simp [hm])) (hfirst i hi)
  have hmatch : matchAt (confirmLit ++ (a ++ '/' :: (b ++ rest))) = some (a, b) :=
    matchAt_complete a b rest ha hb hsa hsb hseg
  have hscan : scanMatch (pre ++ (confirmLit ++ (a ++ '/' :: (b ++ rest)))) = some (a, b) := by
    rw [scan_skip _ _ hnone]
    exact scanMatch_some_of _ _ hmatch
  have hp : pathConfirmMatch (String.mk (pre ++ (confirmLit ++ (a ++ '/' :: (b ++ rest)))))
      = some (a.asString, b.asString) := by
    unfold pathConfirmMatch
    rw [show (String.mk (pre ++ (confirmLit ++ (a ++ '/' :: (b ++ rest))))).data
        = pre ++ (confirmLit ++ (a ++ '/' :: (b ++ rest))) from rfl, hscan]
    rfl
  unfold checkQuoteUrl
  rw [hp]

/-- Witness for C9: `/x/quote/confirm/AB/tok/extra` has a prefix before
`/quote` and a trailing segment; the extractor yields `("AB", "tok")`. -/
theorem c9_unanchored_first_occurrence_witness :
    checkQuoteUrl (String.mk ("/x".data
        ++ (confirmLit ++ ("AB".data ++ '/' :: ("tok".data ++ "/extra".data))))) ""
      = some ("AB", "tok") := by
  have h := c9_unanchored_first_occurrence "/x".data "AB".data "tok".data "/extra".data ""
    (by decide) (by decide) (by decide) (by decide)
    (Or.inr ⟨"extra".data, by decide⟩)
    (by
      intro i hi hpat
      rw [patternAt_iff] at hpat
      have hi2 : i < 2 := by simpa using hi
      interval_cases i
      · revert hpat; decide
      · revert hpat; decide)
  exact h.trans (by decide)

/-- Counterexample to claim C5 as stated: a confirm POST failing with a
host-thrown `Error` whose `message` is the empty string is caught and sets
the error state to `""`, yet the resulting view is the pending card - not an
error panel with a retry action - because the source's `if (error)` check is
false for the empty string. -/
theorem c5_empty_message_no_error_panel :
    (handleConfirmQuote sIdle (ConfirmOutcome.networkError (some ""))).error = some ""
      ∧ render (handleConfirmQuote sIdle (ConfirmOutcome.networkError (some "")))
          = View.pendingView qDemo false ClickHandler.acceptQuote :=
  ⟨by decide, by decide⟩

/-- Claim C5, amended: every network failure, non-2xx response or JSON parse
failure of the GET or of the confirm POST is caught and sets the error state
to a message string, and - provided the stored message is non-empty, which
holds for every message the component itself constructs and fails only for a
host-thrown `Error` carrying an empty `message` - the resulting state
renders as the error panel whose retry button re-runs `loadQuoteDetails`. -/
theorem c5_failures_render_error_panel (s : ComponentState)
    (og : GetOutcome) (oc : ConfirmOutcome)
    (hg : og.isFailure = true) (hc : oc.isFailure = true) (hl : s.isLoading = false)
    (hgt : og.errTruthy = true) (hct : oc.errTruthy = true) :
    (∃ m, (loadQuoteDetails s og).error = some m
        ∧ render (loadQuoteDetails s og) = View.errorPanel m ClickHandler.retryLoad)
      ∧ (∃ m, (handleConfirmQuote s oc).error = some m
        ∧ render (handleConfirmQuote s oc) = View.errorPanel m ClickHandler.retryLoad) := by
  constructor
  · cases og with
    | success q? => simp [GetOutcome.isFailure] at hg
    | httpError st txt =>
      refine ⟨_, rfl, render_error_state _ _ rfl rfl ?_⟩
      exact append_ne_empty_left _ _
        (append_ne_empty_left _ _ (append_ne_empty_left _ _ (by decide)))
    | networkError m =>
      cases m with
      | none => exact ⟨_, rfl, render_error_state _ _ rfl rfl (by decide)⟩
      | some m =>
        have hm : m ≠ "" := by simpa [GetOutcome.errTruthy] using hgt
        exact ⟨_, rfl, render_error_state _ _ rfl rfl hm⟩
    | parseError m =>
      cases m with
      | none => exact ⟨_, rfl, render_error_state _ _ rfl rfl (by decide)⟩
      | some m =>
        have hm : m ≠ "" := by simpa [GetOutcome.errTruthy] using hgt
        exact ⟨_, rfl, render_error_state _ _ rfl rfl hm⟩
  · cases oc with
    | success q? => simp [ConfirmOutcome.isFailure] at hc
    | httpError st txt =>
      refine ⟨_, rfl, render_error_state _ _ hl rfl ?_⟩
      exact append_ne_empty_left _ _
        (append_ne_empty_left _ _ (append_ne_empty_left _ _ (by decide)))
    | networkError m =>
      cases m with
      | none => exact ⟨_, rfl, render_error_state _ _ hl rfl (by decide)⟩
      | some m =>
        have hm : m ≠ "" := by simpa [ConfirmOutcome.errTruthy] using hct
        exact ⟨_, rfl, render_error_state _ _ hl rfl hm⟩
    | parseError m =>
      cases m with
      | none => exact ⟨_, rfl, render_error_state _ _ hl rfl (by decide)⟩
      | some m =>
        have hm : m ≠ "" := by simpa [ConfirmOutcome.errTruthy] using hct
        exact ⟨_, rfl, render_error_state _ _ hl rfl hm⟩

/-- Witness for C5 (amended): a 500 on the GET and a network failure with a
non-`Error` thrown value on the POST, from the idle state. -/
theorem c5_failures_render_error_panel_witness :
    (∃ m, (loadQuoteDetails sIdle (GetOutcome.httpError 500 "boom")).error = some m
        ∧ render (loadQuoteDetails sIdle (GetOutcome.httpError 500 "boom"))
            = View.errorPanel m ClickHandler.retryLoad)
      ∧ (∃ m, (handleConfirmQuote sIdle (ConfirmOutcome.networkError none)).error = some m
        ∧ render (handleConfirmQuote sIdle (ConfirmOutcome.networkError none))
            = View.errorPanel m ClickHandler.retryLoad) :=
  c5_failures_render_error_panel sIdle (GetOutcome.httpError 500 "boom")
    (ConfirmOutcome.networkError none) (by decide) (by decide) (by decide)
    (by decide) (by decide)

/-- Claim C6: a failed confirm call leaves the locally held quote and the
confirmed flag unchanged and sets an error message; only a successful
confirm call sets `confirmed` and overwrites the local quote - and only with
a server-returned quote, when the response body carries one. -/
theorem c6_no_optimistic_overwrite (s : ComponentState) (oc : ConfirmOutcome) :
    (handleConfirmQuote s oc).quote
        = (match oc with
          | .success (some q) => some q
          | _ => s.quote)
      ∧ (handleConfirmQuote s oc).confirmed
        = (match oc with
          | .success _ => true
          | _ => s.confirmed)
      ∧ ((handleConfirmQuote s oc).error).isSome = oc.isFailure := by
  cases oc with
  | success q? =>
    cases q? <;>
      simp [handleConfirmQuote, confirmStart, confirmFinish, ConfirmOutcome.isFailure]
  | httpError st txt =>
    simp [handleConfirmQuote, confirmStart, confirmFinish, ConfirmOutcome.isFailure]
  | networkError m =>
    simp [handleConfirmQuote, confirmStart, confirmFinish, ConfirmOutcome.isFailure]
  | parseError m =>
    simp [handleConfirmQuote, confirmStart, confirmFinish, ConfirmOutcome.isFailure]

/-- Claim C7: while the confirm POST started by the accept button is pending
the state has `isConfirming = true`, and if that state renders the pending
card at all, its accept button is disabled, so a second concurrent confirm
request cannot be started. -/
theorem c7_accept_disabled_while_confirming (s : ComponentState)
    (q : Quote) (d : Bool) (cb : ClickHandler)
    (h : render (confirmStart s) = View.pendingView q d cb) :
    (confirmStart s).isConfirming = true ∧ d = true := by
  refine ⟨rfl, ?_⟩
  simp only [render, confirmStart, truthy] at h
  split at h
  · simp at h
  · split at h
    · simp at h
    · split at h
      · simp at h
      · split at h
        · simp at h
        · injection h with h1 h2 h3
          exact h2.symm

/-- Witness for C7: from the idle state, the pending-confirm state renders
the pending card with the accept button disabled. -/
theorem c7_accept_disabled_while_confirming_witness :
    (confirmStart sIdle).isConfirming = true ∧ true = true :=
  c7_accept_disabled_while_confirming sIdle qDemo true ClickHandler.acceptQuote (by decide)

/-- Claim C10: after a successful GET the view is confirmed exactly when the
returned quote's `status` is `accepted` (rendering the confirmed card, else
the pending card), and a success body with no quote value renders the
not-found panel rather than an error. -/
theorem c10_confirmed_iff_accepted (s : ComponentState) (q : Quote) :
    (loadQuoteDetails s (GetOutcome.success (some q))).confirmed = (q.status == "accepted")
      ∧ render (loadQuoteDetails s (GetOutcome.success (some q)))
          = (if q.status == "accepted" then View.confirmedView q
             else View.pendingView q s.isConfirming ClickHandler.acceptQuote)
      ∧ render (loadQuoteDetails s (GetOutcome.success none)) = View.notFound := by
  refine ⟨rfl, ?_, rfl⟩
  cases hst : q.status == "accepted" <;>
    simp [render, loadQuoteDetails, loadStart, loadFinish, truthy, hst]
